import Mathlib

/-!
Shallow embedding of the task-board state engine of
`src/src/pages/UserPages/Dashboard.jsx` (a React dashboard component).

The component keeps its board in a React `useState` object
`{"To Do": [...], "In Progress": [...], Completed: [...]}` whose keys are
column names and whose values are ordered task arrays.  We model that JS
object as an association list `List (String × List Task)` that preserves
key insertion order, exactly as `Object.keys` iterates it.  Task ids and
column ids are modelled as strings; JS falsiness of a string (`!s`) is
`s == ""`.
-/

namespace TaskBoard

/-- Task record as stored in the dashboard's localStorage payload:
`id`, `title`, integer `progress`, optional `deadline` (ISO date string). -/
structure Task where
  id : String
  title : String
  progress : Int
  deadline : Option String
deriving DecidableEq, Repr

/-- Board state: the component's `tasks` object, an insertion-ordered
mapping from column name to ordered task list. -/
abbrev Board := List (String × List Task)

/-- Lookup `tasks[k]`, defaulting a missing key to `[]` (the code guards
the only read of a possibly-missing key with `|| []`). -/
def lookupCol (b : Board) (k : String) : List Task :=
  match b.find? (fun kv => kv.1 == k) with
  | some kv => kv.2
  | none => []

/-- JS object assignment `tasks[k] = v`: replaces the value of an existing
key in place (key order kept), or appends a brand-new key at the end
(JS insertion order). -/
def setCol (b : Board) (k : String) (v : List Task) : Board :=
  if b.any (fun kv => kv.1 == k) then
    b.map (fun kv => if kv.1 == k then (k, v) else kv)
  else b ++ [(k, v)]

/-- Tasks of one column containing a given task id:
`tasks[column].some((task) => task.id === i)` (Dashboard.jsx line 97). -/
def columnContains (ts : List Task) (i : String) : Bool :=
  ts.any (fun t => t.id == i)

/-- First column whose list contains the id:
`Object.keys(tasks).find((column) => tasks[column].some((task) => task.id === id))`
(Dashboard.jsx lines 96-99). -/
def findSourceColumn (b : Board) (i : String) : Option String :=
  (b.find? (fun kv => columnContains kv.2 i)).map Prod.fst

/-- JS `a || dflt` where `a` is the possibly-undefined result of a key
search and falsiness of a string is emptiness (Dashboard.jsx line 99). -/
def orElseFalsy (a : Option String) (dflt : String) : String :=
  match a with
  | none => dflt
  | some s => if s == "" then dflt else s

/-- Flatten used by the persist call on Dashboard.jsx line 112:
`[...tasks["To Do"], ...tasks["In Progress"], ...tasks["Completed"]]`
(the three keys are hard-coded, in that order). -/
def asFlatSequence (b : Board) : List Task :=
  lookupCol b "To Do" ++ lookupCol b "In Progress" ++ lookupCol b "Completed"

/-- Drag handler `handleDragEnd` (Dashboard.jsx lines 92-113) as a pure
function from the current `tasks` state and the drag event
(`active.id`, `over?.id`) to the next state together with the payload
written to localStorage (`none` when no `setItem` call happens).

Key modelling point, faithful to React semantics: the `localStorage.setItem`
on line 112 reads the component's `tasks` closure variable, which still
holds the PRE-move state (the `setTasks` updater has not been applied
inside the same event handler), so the persisted payload is the flatten of
the input board, not of the updated board. -/
def handleDragEnd (tasks : Board) (activeId : String) (over : Option String) :
    Board × Option (List Task) :=
  match over with
  | none => (tasks, none)
  | some overId =>
    if activeId == overId then (tasks, none)
    else
      match findSourceColumn tasks activeId with
      | none => (tasks, none)
      | some src =>
        let targetColumn := orElseFalsy (findSourceColumn tasks overId) overId
        if src == "" || targetColumn == "" || src == targetColumn then (tasks, none)
        else
          let movedTask := (lookupCol tasks src).find? (fun t => t.id == activeId)
          let b1 := setCol tasks src
            ((lookupCol tasks src).filter (fun t => !(t.id == activeId)))
          let b2 := setCol b1 targetColumn
            (lookupCol b1 targetColumn ++ movedTask.toList)
          (b2, some (asFlatSequence tasks))

/-- Predicate of the "To Do" filter: `task.progress <= 40` (line 55). -/
def isToDo (p : Int) : Bool := p ≤ 40

/-- Predicate of the "In Progress" filter:
`task.progress > 40 && task.progress <= 80` (line 56). -/
def isInProgress (p : Int) : Bool := 40 < p && p ≤ 80

/-- Predicate of the "Completed" filter: `task.progress > 80` (line 57). -/
def isCompleted (p : Int) : Bool := 80 < p

/-- Single-valued categorizer induced by the three filter predicates of
lines 55-57 (the spec's `categorize`). -/
def categorize (p : Int) : String :=
  if isToDo p then "To Do"
  else if isInProgress p then "In Progress"
  else "Completed"

/-- Partition of the stored task list into the three fixed columns
(`categorizedTasks`, Dashboard.jsx lines 54-58). -/
def build (ts : List Task) : Board :=
  [("To Do", ts.filter (fun t => isToDo t.progress)),
   ("In Progress", ts.filter (fun t => isInProgress t.progress)),
   ("Completed", ts.filter (fun t => isCompleted t.progress))]

/-- Outcome of `JSON.parse(localStorage.getItem("tasks"))` on line 53,
modelled as data (the JSON library is external to the repository):
`absent` — no stored payload, `getItem` returns `null` and `JSON.parse`
yields `null`; `malformed` — the stored string is unparseable and
`JSON.parse` throws; `stored ts` — the payload parses to a task array
(the only shape this application ever writes). -/
inductive StoredPayload where
  | absent
  | malformed
  | stored (ts : List Task)
deriving DecidableEq, Repr

/-- Task-load step of the mount effect (Dashboard.jsx line 53):
`const storedTasks = JSON.parse(localStorage.getItem("tasks")) || [];`
with no try/catch around it: a parse error propagates out of the effect.
An `Except.error` models the uncaught exception. -/
def loadAll : StoredPayload → Except String (List Task)
  | .absent => .ok []
  | .malformed => .error "SyntaxError"
  | .stored ts => .ok ts

/-- Notification event emitted through `showNotification` (lines 82-90):
the toast message and its background class. -/
structure NotificationEvent where
  message : String
  bgClass : String
deriving DecidableEq, Repr

/-- Due-today event (Dashboard.jsx line 75). -/
def dueTodayEvent (title : String) : NotificationEvent :=
  ⟨"🚨 Task Due Today: \"" ++ title ++ "\"", "bg-red-500 text-white"⟩

/-- Due-tomorrow event (Dashboard.jsx line 77). -/
def dueTomorrowEvent (title : String) : NotificationEvent :=
  ⟨"⏳ Task Due Tomorrow: \"" ++ title ++ "\"", "bg-yellow-500 text-black"⟩

/-- Deadline scan `checkDeadlines` (Dashboard.jsx lines 67-80) as the
sequence of events it emits, in input order.  The concrete date strings
`today` and `tomorrowStr` are the two values the code derives from the
clock (`today + 1 day` formatted the same way); they are parameters here
because wall-clock time is outside the embedding. -/
def checkDeadlines (tasks : List Task) (today tomorrowStr : String) :
    List NotificationEvent :=
  tasks.filterMap (fun t =>
    if t.deadline == some today then some (dueTodayEvent t.title)
    else if t.deadline == some tomorrowStr then some (dueTomorrowEvent t.title)
    else none)

/-- The `DEFAULT_FILTER_OPTION` constant (Dashboard.jsx line 36). -/
def DEFAULT_FILTER_OPTION : String := "all"

/-- The `filteredTasks` memo (Dashboard.jsx lines 141-147): the full state
when the filter is the default, otherwise only the entries whose key
equals the active filter. -/
def filteredTasks (tasks : Board) (taskStatusFilter : String) : Board :=
  if taskStatusFilter == DEFAULT_FILTER_OPTION then tasks
  else tasks.filter (fun kv => kv.1 == taskStatusFilter)

/-- The `selectStatusFilter` toggle (Dashboard.jsx lines 133-139): selecting
the already-active status resets to the default, otherwise selects it. -/
def selectStatusFilter (taskStatusFilter status : String) : String :=
  if taskStatusFilter == status then DEFAULT_FILTER_OPTION else status

/-- All tasks of the board, across all columns in key order. -/
def allTasks (b : Board) : List Task :=
  (b.map Prod.snd).flatten

/-- Sample task with progress 10 (spec section 8, scenario 8). -/
def task1 : Task := ⟨"1", "task one", 10, none⟩

/-- Sample task with progress 50 (spec section 8, scenario 8). -/
def task2 : Task := ⟨"2", "task two", 50, none⟩

/-- Sample task with progress 90 (spec section 8, scenario 8). -/
def task3 : Task := ⟨"3", "task three", 90, none⟩

/-- Board built from the three sample tasks:
ToDo = [task1], InProgress = [task2], Completed = [task3]. -/
def demoBoard3 : Board :=
  [("To Do", [task1]), ("In Progress", [task2]), ("Completed", [task3])]

/-- C4: for every integer progress p in [0,100], categorize(p) returns exactly
one of the three columns, with p <= 40 mapping to "To Do", 40 < p <= 80 to
"In Progress" and p > 80 to "Completed"; the three filter predicates of the
code partition the range with no gap or overlap. -/
theorem C4_categorize_partition (p : Int) (h0 : 0 ≤ p) (h100 : p ≤ 100) :
    (categorize p = "To Do" ∨ categorize p = "In Progress" ∨
      categorize p = "Completed")
    ∧ (categorize p = "To Do" ↔ p ≤ 40)
    ∧ (categorize p = "In Progress" ↔ 40 < p ∧ p ≤ 80)
    ∧ (categorize p = "Completed" ↔ 80 < p)
    ∧ ((isToDo p && !isInProgress p && !isCompleted p)
        || (!isToDo p && isInProgress p && !isCompleted p)
        || (!isToDo p && !isInProgress p && isCompleted p)) = true := by
  unfold categorize isToDo isInProgress isCompleted
  by_cases h1 : p ≤ 40
  · simp [h1]
    omega
  · have h3 : (40 : Int) < p := by omega
    by_cases h2 : p ≤ 80
    · simp [h1, h2, h3]
    · simp [h1, h2, h3]
      omega

/-- Witness for C4: boundary value 41 lies in [0,100] and is categorized as
"In Progress". -/
theorem C4_categorize_partition_witness :
    categorize 41 = "In Progress" ↔ (40 : Int) < 41 ∧ (41 : Int) ≤ 80 :=
  (C4_categorize_partition 41 (by decide) (by decide)).2.2.1

/-- C2 counterexample: a malformed stored payload is not treated as "no
tasks": the load step propagates the parse failure instead of returning the
empty collection, so loadAll does fail the caller for that payload. -/
theorem C2_loadAll_counterexample :
    loadAll StoredPayload.malformed ≠ Except.ok ([] : List Task)
    ∧ (loadAll StoredPayload.malformed).isOk = false := by
  exact ⟨by intro h; exact Except.noConfusion h, rfl⟩

/-- C2 amended: loadAll returns the persisted collection, and returns the
empty sequence when no stored payload exists; but a malformed stored payload
makes the load fail (the parse error propagates to the caller) rather than
being treated as "no tasks". -/
theorem C2_loadAll_amended (ts : List Task) :
    loadAll StoredPayload.absent = Except.ok []
    ∧ loadAll (StoredPayload.stored ts) = Except.ok ts
    ∧ (loadAll StoredPayload.malformed).isOk = false :=
  ⟨rfl, rfl, rfl⟩

/-- C8: the "all" selector returns the full board unchanged, and selecting a
column filter that is already active toggles the filter back to "all", so a
double-select from any other active filter returns the full board. -/
theorem C8_filter_toggle (b : Board) (X cur : String) :
    filteredTasks b "all" = b
    ∧ selectStatusFilter X X = "all"
    ∧ filteredTasks b (selectStatusFilter X X) = b
    ∧ (cur ≠ X →
        filteredTasks b (selectStatusFilter (selectStatusFilter cur X) X) = b) := by
  refine ⟨?_, ?_, ?_, ?_⟩
  · simp [filteredTasks, DEFAULT_FILTER_OPTION]
  · simp [selectStatusFilter, DEFAULT_FILTER_OPTION]
  · simp [filteredTasks, selectStatusFilter, DEFAULT_FILTER_OPTION]
  · intro h
    have hcx : (cur == X) = false := by
      exact beq_eq_false_iff_ne.mpr h
    simp [filteredTasks, selectStatusFilter, DEFAULT_FILTER_OPTION, hcx]

/-- Witness for C8: from active filter "all", selecting "To Do" twice
returns the full demo board. -/
theorem C8_filter_toggle_witness :
    filteredTasks demoBoard3
      (selectStatusFilter (selectStatusFilter "all" "To Do") "To Do") = demoBoard3 :=
  (C8_filter_toggle demoBoard3 "To Do" "all").2.2.2 (by decide)

theorem lookupCol_build_toDo (ts : List Task) :
    lookupCol (build ts) "To Do" = ts.filter (fun t => isToDo t.progress) := rfl

theorem lookupCol_build_inProgress (ts : List Task) :
    lookupCol (build ts) "In Progress"
      = ts.filter (fun t => isInProgress t.progress) := rfl

theorem lookupCol_build_completed (ts : List Task) :
    lookupCol (build ts) "Completed"
      = ts.filter (fun t => isCompleted t.progress) := rfl

theorem beq_categorize_toDo (p : Int) :
    (categorize p == "To Do") = isToDo p := by
  simp only [categorize, isToDo, isInProgress, isCompleted]
  by_cases h1 : p ≤ 40
  · simp [h1]
  · by_cases h2 : 40 < p ∧ p ≤ 80 <;> simp [h1, h2]

theorem beq_categorize_inProgress (p : Int) :
    (categorize p == "In Progress") = isInProgress p := by
  simp only [categorize, isToDo, isInProgress, isCompleted]
  by_cases h1 : p ≤ 40
  · have h2 : ¬(40 < p) := by omega
    simp [h1, h2]
  · by_cases h2 : 40 < p ∧ p ≤ 80
    · simp [h1, h2]
    · have h3 : (40 : Int) < p := by omega
      have h4 : ¬(p ≤ 80) := by omega
      simp [h1, h3, h4]

theorem beq_categorize_completed (p : Int) :
    (categorize p == "Completed") = isCompleted p := by
  simp only [categorize, isToDo, isInProgress, isCompleted]
  by_cases h1 : p ≤ 40
  · have h2 : ¬(80 < p) := by omega
    simp [h1, h2]
  · have h3 : (40 : Int) < p := by omega
    by_cases h2 : p ≤ 80
    · have h4 : ¬(80 < p) := by omega
      simp [h1, h2, h3, h4]
    · have h4 : (80 : Int) < p := by omega
      simp [h1, h2, h3, h4]

/-- C7: build partitions the input tasks by categorize(progress) into the
three fixed columns, each column keeping the input sequence's relative
order (it is literally a filter of the input sequence). -/
theorem C7_build_stable_partition (ts : List Task) :
    (build ts).map Prod.fst = ["To Do", "In Progress", "Completed"]
    ∧ lookupCol (build ts) "To Do"
        = ts.filter (fun t => categorize t.progress == "To Do")
    ∧ lookupCol (build ts) "In Progress"
        = ts.filter (fun t => categorize t.progress == "In Progress")
    ∧ lookupCol (build ts) "Completed"
        = ts.filter (fun t => categorize t.progress == "Completed") := by
  refine ⟨rfl, ?_, ?_, ?_⟩
  · rw [lookupCol_build_toDo]
    exact (List.filter_congr (fun t _ => beq_categorize_toDo t.progress)).symm
  · rw [lookupCol_build_inProgress]
    exact (List.filter_congr (fun t _ => beq_categorize_inProgress t.progress)).symm
  · rw [lookupCol_build_completed]
    exact (List.filter_congr (fun t _ => beq_categorize_completed t.progress)).symm

theorem filter_progress_idem (p : Int → Bool) (ts : List Task) :
    (ts.filter (fun t => p t.progress)).filter (fun t => p t.progress)
      = ts.filter (fun t => p t.progress) :=
  List.filter_eq_self.mpr (fun _ ha => (List.mem_filter.mp ha).2)

theorem filter_progress_disjoint (p q : Int → Bool)
    (h : ∀ x : Int, p x = true → q x = false) (ts : List Task) :
    (ts.filter (fun t => p t.progress)).filter (fun t => q t.progress) = [] :=
  List.filter_eq_nil_iff.mpr (fun a ha hq => by
    have hp : p a.progress = true := (List.mem_filter.mp ha).2
    rw [h a.progress hp] at hq
    exact Bool.false_ne_true hq)

theorem isInProgress_not_isToDo : ∀ x : Int, isInProgress x = true → isToDo x = false := by
  intro x hx
  simp [isInProgress] at hx
  simp [isToDo]
  omega

theorem isCompleted_not_isToDo : ∀ x : Int, isCompleted x = true → isToDo x = false := by
  intro x hx
  simp [isCompleted] at hx
  simp [isToDo]
  omega

theorem isToDo_not_isInProgress : ∀ x : Int, isToDo x = true → isInProgress x = false := by
  intro x hx
  simp [isToDo] at hx
  simp [isInProgress]
  omega

theorem isCompleted_not_isInProgress :
    ∀ x : Int, isCompleted x = true → isInProgress x = false := by
  intro x hx
  simp [isCompleted] at hx
  simp [isInProgress]
  omega

theorem isToDo_not_isCompleted : ∀ x : Int, isToDo x = true → isCompleted x = false := by
  intro x hx
  simp [isToDo] at hx
  simp [isCompleted]
  omega

theorem isInProgress_not_isCompleted :
    ∀ x : Int, isInProgress x = true → isCompleted x = false := by
  intro x hx
  simp [isInProgress] at hx
  simp [isCompleted]
  omega

/-- C9: rebuilding the board from the flattening of a built board yields the
board itself: re-partitioning asFlatSequence(build ts) gives the same three
columns back (hence in particular the same member sets). -/
theorem C9_build_flatten_roundtrip (ts : List Task) :
    build (asFlatSequence (build ts)) = build ts := by
  rw [asFlatSequence, lookupCol_build_toDo, lookupCol_build_inProgress,
    lookupCol_build_completed]
  show build _ = build ts
  rw [build, build]
  rw [List.filter_append, List.filter_append, List.filter_append,
    List.filter_append, List.filter_append, List.filter_append]
  rw [filter_progress_idem isToDo, filter_progress_idem isInProgress,
    filter_progress_idem isCompleted,
    filter_progress_disjoint isInProgress isToDo isInProgress_not_isToDo,
    filter_progress_disjoint isCompleted isToDo isCompleted_not_isToDo,
    filter_progress_disjoint isToDo isInProgress isToDo_not_isInProgress,
    filter_progress_disjoint isCompleted isInProgress isCompleted_not_isInProgress,
    filter_progress_disjoint isToDo isCompleted isToDo_not_isCompleted,
    filter_progress_disjoint isInProgress isCompleted isInProgress_not_isCompleted]
  simp

/-- Observer: an event is a due-today event exactly when it carries the
elevated (red) style the code attaches on line 75. -/
def isDueTodayEvent (e : NotificationEvent) : Bool :=
  e.bgClass == "bg-red-500 text-white"

/-- Observer: an event is a due-tomorrow event exactly when it carries the
advisory (yellow) style the code attaches on line 77. -/
def isDueTomorrowEvent (e : NotificationEvent) : Bool :=
  e.bgClass == "bg-yellow-500 text-black"

/-- Step lemma: a task whose deadline matches today contributes a due-today
event at the head of the scan output. -/
theorem checkDeadlines_cons_today (t : Task) (rest : List Task)
    (today tom : String) (h1 : (t.deadline == some today) = true) :
    checkDeadlines (t :: rest) today tom
      = dueTodayEvent t.title :: checkDeadlines rest today tom := by
  have hp : t.deadline = some today := by simpa using h1
  simp [checkDeadlines, List.filterMap_cons, hp]

/-- Step lemma: a task whose deadline matches tomorrow (and not today)
contributes a due-tomorrow event at the head of the scan output. -/
theorem checkDeadlines_cons_tomorrow (t : Task) (rest : List Task)
    (today tom : String) (h1 : (t.deadline == some today) = false)
    (h2 : (t.deadline == some tom) = true) :
    checkDeadlines (t :: rest) today tom
      = dueTomorrowEvent t.title :: checkDeadlines rest today tom := by
  have hp1 : ¬(t.deadline = some today) := by simpa using h1
  have hp2 : t.deadline = some tom := by simpa using h2
  have hp3 : ¬(tom = today) := fun hh => hp1 (by rw [hp2, hh])
  simp [checkDeadlines, List.filterMap_cons, hp1, hp2, hp3]

/-- Step lemma: a task matching neither date contributes no event. -/
theorem checkDeadlines_cons_none (t : Task) (rest : List Task)
    (today tom : String) (h1 : (t.deadline == some today) = false)
    (h2 : (t.deadline == some tom) = false) :
    checkDeadlines (t :: rest) today tom = checkDeadlines rest today tom := by
  have hp1 : ¬(t.deadline = some today) := by simpa using h1
  have hp2 : ¬(t.deadline = some tom) := by simpa using h2
  simp [checkDeadlines, List.filterMap_cons, hp1, hp2]

theorem checkDeadlines_eq_map_filter (tasks : List Task) (today tom : String) :
    checkDeadlines tasks today tom
      = (tasks.filter (fun t =>
            t.deadline == some today || t.deadline == some tom)).map
          (fun t => if t.deadline == some today then dueTodayEvent t.title
                    else dueTomorrowEvent t.title) := by
  induction tasks with
  | nil => rfl
  | cons t rest ih =>
    by_cases h1 : (t.deadline == some today) = true
    · rw [checkDeadlines_cons_today t rest today tom h1,
        List.filter_cons_of_pos (by simp [h1]), List.map_cons, ih]
      simp [h1]
    · have h1f : (t.deadline == some today) = false := by
        simpa using h1
      by_cases h2 : (t.deadline == some tom) = true
      · rw [checkDeadlines_cons_tomorrow t rest today tom h1f h2,
          List.filter_cons_of_pos (by simp [h2]), List.map_cons, ih]
        simp [h1f]
      · have h2f : (t.deadline == some tom) = false := by
          simpa using h2
        rw [checkDeadlines_cons_none t rest today tom h1f h2f,
          List.filter_cons_of_neg (by simp [h1f, h2f]), ih]

theorem checkDeadlines_countP_today (tasks : List Task) (today tom : String) :
    (checkDeadlines tasks today tom).countP isDueTodayEvent
      = (tasks.filter (fun t => t.deadline == some today)).length := by
  induction tasks with
  | nil => rfl
  | cons t rest ih =>
    by_cases h1 : (t.deadline == some today) = true
    · rw [checkDeadlines_cons_today t rest today tom h1,
        List.countP_cons_of_pos _ _ (by rfl),
        List.filter_cons_of_pos (by simp [h1]), List.length_cons, ih]
    · have h1f : (t.deadline == some today) = false := by
        simpa using h1
      by_cases h2 : (t.deadline == some tom) = true
      · rw [checkDeadlines_cons_tomorrow t rest today tom h1f h2,
          List.countP_cons_of_neg _ _ (by simp [isDueTodayEvent, dueTomorrowEvent]),
          List.filter_cons_of_neg (by simp [h1f]), ih]
      · have h2f : (t.deadline == some tom) = false := by
          simpa using h2
        rw [checkDeadlines_cons_none t rest today tom h1f h2f,
          List.filter_cons_of_neg (by simp [h1f]), ih]

theorem checkDeadlines_countP_tomorrow (tasks : List Task) (today tom : String)
    (h : today ≠ tom) :
    (checkDeadlines tasks today tom).countP isDueTomorrowEvent
      = (tasks.filter (fun t => t.deadline == some tom)).length := by
  induction tasks with
  | nil => rfl
  | cons t rest ih =>
    by_cases h1 : (t.deadline == some today) = true
    · have hnt : (t.deadline == some tom) = false := by
        have hdt : t.deadline = some today := by simpa using h1
        simp [hdt, h]
      rw [checkDeadlines_cons_today t rest today tom h1,
        List.countP_cons_of_neg _ _ (by simp [isDueTomorrowEvent, dueTodayEvent]),
        List.filter_cons_of_neg (by simp [hnt]), ih]
    · have h1f : (t.deadline == some today) = false := by
        simpa using h1
      by_cases h2 : (t.deadline == some tom) = true
      · rw [checkDeadlines_cons_tomorrow t rest today tom h1f h2,
          List.countP_cons_of_pos _ _ (by rfl),
          List.filter_cons_of_pos (by simp [h2]), List.length_cons, ih]
      · have h2f : (t.deadline == some tom) = false := by
          simpa using h2
        rw [checkDeadlines_cons_none t rest today tom h1f h2f,
          List.filter_cons_of_neg (by simp [h2f]), ih]

theorem checkDeadlines_length (tasks : List Task) (today tom : String)
    (h : today ≠ tom) :
    (checkDeadlines tasks today tom).length
      = (tasks.filter (fun t => t.deadline == some today)).length
        + (tasks.filter (fun t => t.deadline == some tom)).length := by
  induction tasks with
  | nil => rfl
  | cons t rest ih =>
    by_cases h1 : (t.deadline == some today) = true
    · have hnt : (t.deadline == some tom) = false := by
        have hdt : t.deadline = some today := by simpa using h1
        simp [hdt, h]
      rw [checkDeadlines_cons_today t rest today tom h1, List.length_cons,
        List.filter_cons_of_pos (by simp [h1]),
        List.filter_cons_of_neg (by simp [hnt]), List.length_cons, ih]
      omega
    · have h1f : (t.deadline == some today) = false := by
        simpa using h1
      by_cases h2 : (t.deadline == some tom) = true
      · rw [checkDeadlines_cons_tomorrow t rest today tom h1f h2, List.length_cons,
          List.filter_cons_of_neg (by simp [h1f]),
          List.filter_cons_of_pos (by simp [h2]), List.length_cons, ih]
        omega
      · have h2f : (t.deadline == some tom) = false := by
          simpa using h2
        rw [checkDeadlines_cons_none t rest today tom h1f h2f,
          List.filter_cons_of_neg (by simp [h1f]),
          List.filter_cons_of_neg (by simp [h2f]), ih]

/-- C6: with distinct today/tomorrow date strings, the deadline scan emits
exactly the events of the tasks whose deadline matches one of the two dates,
in input order (first conjunct); the number of due-today events equals the
number of tasks due today, the number of due-tomorrow events equals the
number of tasks due tomorrow, and no task contributes more than one event
(the total is the sum of the two counts). -/
theorem C6_scan_deadlines (tasks : List Task) (today tomorrowStr : String)
    (h : today ≠ tomorrowStr) :
    checkDeadlines tasks today tomorrowStr
      = (tasks.filter (fun t =>
            t.deadline == some today || t.deadline == some tomorrowStr)).map
          (fun t => if t.deadline == some today then dueTodayEvent t.title
                    else dueTomorrowEvent t.title)
    ∧ (checkDeadlines tasks today tomorrowStr).countP isDueTodayEvent
        = (tasks.filter (fun t => t.deadline == some today)).length
    ∧ (checkDeadlines tasks today tomorrowStr).countP isDueTomorrowEvent
        = (tasks.filter (fun t => t.deadline == some tomorrowStr)).length
    ∧ (checkDeadlines tasks today tomorrowStr).length
        = (tasks.filter (fun t => t.deadline == some today)).length
          + (tasks.filter (fun t => t.deadline == some tomorrowStr)).length :=
  ⟨checkDeadlines_eq_map_filter tasks today tomorrowStr,
   checkDeadlines_countP_today tasks today tomorrowStr,
   checkDeadlines_countP_tomorrow tasks today tomorrowStr h,
   checkDeadlines_length tasks today tomorrowStr h⟩

/-- Sample task due today in the witness scenario (spec section 8,
scenario 9). -/
def task5 : Task := ⟨"5", "task five", 10, some "2025-01-01"⟩

/-- Sample task due tomorrow in the witness scenario (spec section 8,
scenario 9). -/
def task6 : Task := ⟨"6", "task six", 10, some "2025-01-02"⟩

/-- Witness for C6: a task due today followed by a task due tomorrow yields
the due-today event then the due-tomorrow event, in input order. -/
theorem C6_scan_deadlines_witness :
    checkDeadlines [task5, task6] "2025-01-01" "2025-01-02"
      = [dueTodayEvent "task five", dueTomorrowEvent "task six"] := by
  rw [(C6_scan_deadlines [task5, task6] "2025-01-01" "2025-01-02"
    (by decide)).1]
  rfl

theorem lookupCol_cons (kv : String × List Task) (b : Board) (k : String) :
    lookupCol (kv :: b) k = if kv.1 == k then kv.2 else lookupCol b k := by
  cases h : (kv.1 == k) <;> simp [lookupCol, List.find?_cons, h]

theorem lookupCol_eq_nil_of_not_any (b : Board) (k : String)
    (h : b.any (fun kv => kv.1 == k) = false) : lookupCol b k = [] := by
  induction b with
  | nil => rfl
  | cons kv rest ih =>
    rw [List.any_cons] at h
    have h1 : (kv.1 == k) = false := by
      cases hx : (kv.1 == k)
      · rfl
      · rw [hx] at h
        simp at h
    have h2 : rest.any (fun kv => kv.1 == k) = false := by
      cases hx : rest.any (fun kv => kv.1 == k)
      · rfl
      · rw [hx] at h
        simp at h
    rw [lookupCol_cons, h1, if_neg (by simp)]
    exact ih h2

theorem setCol_not_mem (b : Board) (k : String) (v : List Task)
    (h : b.any (fun kv => kv.1 == k) = false) :
    setCol b k v = b ++ [(k, v)] := by
  simp [setCol, h]

theorem setCol_mem (b : Board) (k : String) (v : List Task)
    (h : b.any (fun kv => kv.1 == k) = true) :
    setCol b k v = b.map (fun kv => if kv.1 == k then (k, v) else kv) := by
  simp [setCol, h]

theorem lookupCol_map_replace_self (b : Board) (k : String) (v : List Task)
    (h : b.any (fun kv => kv.1 == k) = true) :
    lookupCol (b.map (fun kv => if kv.1 == k then (k, v) else kv)) k = v := by
  induction b with
  | nil => cases h
  | cons kv rest ih =>
    rw [List.map_cons]
    cases hk : (kv.1 == k)
    · have h2 : rest.any (fun kv => kv.1 == k) = true := by
        rw [List.any_cons, hk] at h
        simpa using h
      rw [if_neg (by simp [hk]), lookupCol_cons, hk, if_neg (by simp)]
      exact ih h2
    · rw [if_pos (by simp [hk]), lookupCol_cons]
      simp

theorem lookupCol_append_right (b c : Board) (k : String)
    (h : b.any (fun kv => kv.1 == k) = false) :
    lookupCol (b ++ c) k = lookupCol c k := by
  induction b with
  | nil => rfl
  | cons kv rest ih =>
    rw [List.any_cons] at h
    have h1 : (kv.1 == k) = false := by
      cases hx : (kv.1 == k)
      · rfl
      · rw [hx] at h
        simp at h
    have h2 : rest.any (fun kv => kv.1 == k) = false := by
      cases hx : rest.any (fun kv => kv.1 == k)
      · rfl
      · rw [hx] at h
        simp at h
    rw [List.cons_append, lookupCol_cons, h1, if_neg (by simp)]
    exact ih h2

theorem lookupCol_setCol_self (b : Board) (k : String) (v : List Task) :
    lookupCol (setCol b k v) k = v := by
  cases hmem : b.any (fun kv => kv.1 == k)
  · rw [setCol_not_mem b k v hmem, lookupCol_append_right b _ k hmem,
      lookupCol_cons]
    simp
  · rw [setCol_mem b k v hmem]
    exact lookupCol_map_replace_self b k v hmem

theorem lookupCol_map_replace_ne (b : Board) (k k2 : String) (v : List Task)
    (h : k2 ≠ k) :
    lookupCol (b.map (fun kv => if kv.1 == k then (k, v) else kv)) k2
      = lookupCol b k2 := by
  induction b with
  | nil => rfl
  | cons kv rest ih =>
    rw [List.map_cons]
    cases hk : (kv.1 == k)
    · rw [if_neg (by simp [hk]), lookupCol_cons, lookupCol_cons]
      cases hk2 : (kv.1 == k2)
      · rw [if_neg (by simp), if_neg (by simp)]
        exact ih
      · rw [if_pos (by simp), if_pos (by simp)]
    · have hkeq : kv.1 = k := by simpa using hk
      have hkk2 : (k == k2) = false := beq_eq_false_iff_ne.mpr (fun hh => h hh.symm)
      have hk2f : (kv.1 == k2) = false := by
        rw [hkeq]
        exact hkk2
      rw [if_pos (by simp [hk]), lookupCol_cons, lookupCol_cons]
      simp only [hkk2, hk2f, Bool.false_eq_true, if_false]
      exact ih

theorem lookupCol_append_single_ne (b : Board) (k k2 : String) (v : List Task)
    (h : k2 ≠ k) :
    lookupCol (b ++ [(k, v)]) k2 = lookupCol b k2 := by
  induction b with
  | nil =>
    have hkk2 : (k == k2) = false := beq_eq_false_iff_ne.mpr (fun hh => h hh.symm)
    simp [lookupCol_cons, hkk2]
  | cons kv rest ih =>
    rw [List.cons_append, lookupCol_cons, lookupCol_cons]
    cases hk2 : (kv.1 == k2)
    · rw [if_neg (by simp), if_neg (by simp)]
      exact ih
    · rw [if_pos (by simp), if_pos (by simp)]

theorem lookupCol_setCol_ne (b : Board) (k k2 : String) (v : List Task)
    (h : k2 ≠ k) :
    lookupCol (setCol b k v) k2 = lookupCol b k2 := by
  cases hmem : b.any (fun kv => kv.1 == k)
  · rw [setCol_not_mem b k v hmem]
    exact lookupCol_append_single_ne b k k2 v h
  · rw [setCol_mem b k v hmem]
    exact lookupCol_map_replace_ne b k k2 v h

theorem handleDragEnd_over_none (b : Board) (a : String) :
    handleDragEnd b a none = (b, none) := rfl

theorem handleDragEnd_onto_self (b : Board) (a : String) :
    handleDragEnd b a (some a) = (b, none) := by
  simp [handleDragEnd]

theorem handleDragEnd_no_source (b : Board) (a o : String)
    (h1 : (a == o) = false) (h2 : findSourceColumn b a = none) :
    handleDragEnd b a (some o) = (b, none) := by
  simp [handleDragEnd, h1, h2]

theorem handleDragEnd_guard_stop (b : Board) (a o src : String)
    (h1 : (a == o) = false) (h2 : findSourceColumn b a = some src)
    (h3 : (src == "" || orElseFalsy (findSourceColumn b o) o == ""
            || src == orElseFalsy (findSourceColumn b o) o) = true) :
    handleDragEnd b a (some o) = (b, none) := by
  simp only [handleDragEnd, h1, h2, h3]
  rfl

theorem handleDragEnd_success (b : Board) (a o src : String)
    (h1 : (a == o) = false) (h2 : findSourceColumn b a = some src)
    (h3 : (src == "" || orElseFalsy (findSourceColumn b o) o == ""
            || src == orElseFalsy (findSourceColumn b o) o) = false) :
    handleDragEnd b a (some o) =
      (setCol (setCol b src ((lookupCol b src).filter (fun t => !(t.id == a))))
         (orElseFalsy (findSourceColumn b o) o)
         (lookupCol (setCol b src ((lookupCol b src).filter (fun t => !(t.id == a))))
            (orElseFalsy (findSourceColumn b o) o)
          ++ ((lookupCol b src).find? (fun t => t.id == a)).toList),
       some (asFlatSequence b)) := by
  simp only [handleDragEnd, h1, h2, h3]
  rfl

/-- C3: the drag handler is a silent no-op (state returned unchanged, no
persist) in each of the guard cases of Dashboard.jsx lines 94 and 101: the
dragged task id is found in no column; the resolved target column is
missing (the `find || over.id` resolution is falsy, i.e. empty); the source
column equals the resolved target column; and the card is dropped onto
itself.  No case can raise an error: the handler is a total function. -/
theorem C3_move_noop_cases (b : Board) (activeId overId : String) :
    (findSourceColumn b activeId = none →
      handleDragEnd b activeId (some overId) = (b, none))
    ∧ (orElseFalsy (findSourceColumn b overId) overId = "" →
      handleDragEnd b activeId (some overId) = (b, none))
    ∧ (∀ src, findSourceColumn b activeId = some src →
      orElseFalsy (findSourceColumn b overId) overId = src →
      handleDragEnd b activeId (some overId) = (b, none))
    ∧ handleDragEnd b activeId (some activeId) = (b, none) := by
  refine ⟨?_, ?_, ?_, handleDragEnd_onto_self b activeId⟩
  · intro h2
    by_cases h1 : (activeId == overId) = true
    · have heq : activeId = overId := by simpa using h1
      subst heq
      exact handleDragEnd_onto_self b activeId
    · have h1f : (activeId == overId) = false := by simpa using h1
      exact handleDragEnd_no_source b activeId overId h1f h2
  · intro h2
    by_cases h1 : (activeId == overId) = true
    · have heq : activeId = overId := by simpa using h1
      subst heq
      exact handleDragEnd_onto_self b activeId
    · have h1f : (activeId == overId) = false := by simpa using h1
      cases hsrc : findSourceColumn b activeId with
      | none => exact handleDragEnd_no_source b activeId overId h1f hsrc
      | some src =>
        refine handleDragEnd_guard_stop b activeId overId src h1f hsrc ?_
        rw [h2]
        simp
  · intro src hsrc htgt
    by_cases h1 : (activeId == overId) = true
    · have heq : activeId = overId := by simpa using h1
      subst heq
      exact handleDragEnd_onto_self b activeId
    · have h1f : (activeId == overId) = false := by simpa using h1
      refine handleDragEnd_guard_stop b activeId overId src h1f hsrc ?_
      rw [htgt]
      simp

/-- Witness for C3: dropping the unknown task id "999" over the "To Do"
column of the demo board leaves it unchanged and persists nothing. -/
theorem C3_move_noop_cases_witness :
    handleDragEnd demoBoard3 "999" (some "To Do") = (demoBoard3, none) :=
  (C3_move_noop_cases demoBoard3 "999" "To Do").1 (by decide)

/-- C1 at its failing input: moving task "2" from "In Progress" onto
"Completed" does persist a payload, but that payload is the flatten of the
PRE-move board [task1, task2, task3] (the stale `tasks` closure of line
112), not the flatten [task1, task3, task2] of the board resulting from
the move, so the persisted collection differs from the flattening of the
post-move state. -/
theorem C1_persisted_flatten_is_stale :
    (handleDragEnd demoBoard3 "2" (some "Completed")).2
        = some (asFlatSequence demoBoard3)
    ∧ asFlatSequence demoBoard3 = [task1, task2, task3]
    ∧ asFlatSequence (handleDragEnd demoBoard3 "2" (some "Completed")).1
        = [task1, task3, task2]
    ∧ (handleDragEnd demoBoard3 "2" (some "Completed")).2
        ≠ some (asFlatSequence (handleDragEnd demoBoard3 "2" (some "Completed")).1) := by
  decide

theorem find?_middle (l1 l2 : List Task) (T : Task) (p : Task → Bool)
    (hl1 : ∀ u ∈ l1, p u = false) (hT : p T = true) :
    (l1 ++ T :: l2).find? p = some T := by
  induction l1 with
  | nil =>
    rw [List.nil_append, List.find?_cons, hT]
  | cons u rest ih =>
    have hu : p u = false := hl1 u (by simp)
    rw [List.cons_append, List.find?_cons, hu]
    exact ih (fun x hx => hl1 x (by simp [hx]))

theorem filter_remove_middle (l1 l2 : List Task) (T : Task) (a : String)
    (hl1 : ∀ u ∈ l1, (u.id == a) = false) (hT : (T.id == a) = true)
    (hl2 : ∀ u ∈ l2, (u.id == a) = false) :
    (l1 ++ T :: l2).filter (fun t => !(t.id == a)) = l1 ++ l2 := by
  rw [List.filter_append, List.filter_cons]
  have h1 : l1.filter (fun t => !(t.id == a)) = l1 :=
    List.filter_eq_self.mpr (fun u hu => by rw [hl1 u hu]; rfl)
  have h2 : l2.filter (fun t => !(t.id == a)) = l2 :=
    List.filter_eq_self.mpr (fun u hu => by rw [hl2 u hu]; rfl)
  rw [h1, h2, hT]
  simp

/-- C5: a successful cross-column move of task T from column A to a distinct
resolved target column B removes T from A (keeping the order of A's other
members), appends T itself to the end of B (keeping the order of B's prior
members), leaves every other column untouched, and leaves T's progress
value unchanged (the appended task is T verbatim).  The uniqueness
hypotheses on T's id state the board invariant that an id occurs at most
once in its column. -/
theorem C5_move_cross_column (b : Board) (T : Task) (A B overId : String)
    (l1 l2 : List Task)
    (hsrc : findSourceColumn b T.id = some A)
    (hA : lookupCol b A = l1 ++ T :: l2)
    (hu1 : ∀ u ∈ l1, (u.id == T.id) = false)
    (hu2 : ∀ u ∈ l2, (u.id == T.id) = false)
    (htgt : orElseFalsy (findSourceColumn b overId) overId = B)
    (hBA : B ≠ A) (hBne : B ≠ "") (hAne : A ≠ "") (hno : T.id ≠ overId) :
    lookupCol (handleDragEnd b T.id (some overId)).1 A = l1 ++ l2
    ∧ lookupCol (handleDragEnd b T.id (some overId)).1 B = lookupCol b B ++ [T]
    ∧ (∀ c, c ≠ A → c ≠ B →
        lookupCol (handleDragEnd b T.id (some overId)).1 c = lookupCol b c)
    ∧ (lookupCol (handleDragEnd b T.id (some overId)).1 B).map Task.progress
        = (lookupCol b B).map Task.progress ++ [T.progress] := by
  have h1 : (T.id == overId) = false := beq_eq_false_iff_ne.mpr hno
  have hAe : (A == "") = false := beq_eq_false_iff_ne.mpr hAne
  have hBe : (B == "") = false := beq_eq_false_iff_ne.mpr hBne
  have hAB : (A == B) = false := beq_eq_false_iff_ne.mpr (fun hh => hBA hh.symm)
  have h3 : (A == "" || orElseFalsy (findSourceColumn b overId) overId == ""
      || A == orElseFalsy (findSourceColumn b overId) overId) = false := by
    rw [htgt, hAe, hBe, hAB]
    rfl
  have hstep := handleDragEnd_success b T.id overId A h1 hsrc h3
  rw [htgt] at hstep
  have hfind : (lookupCol b A).find? (fun t => t.id == T.id) = some T := by
    rw [hA]
    exact find?_middle l1 l2 T _ hu1 (by simp)
  have hfilter : (lookupCol b A).filter (fun t => !(t.id == T.id)) = l1 ++ l2 := by
    rw [hA]
    exact filter_remove_middle l1 l2 T T.id hu1 (by simp) hu2
  rw [hstep, hfind, hfilter]
  have hb1A : lookupCol (setCol b A (l1 ++ l2)) A = l1 ++ l2 :=
    lookupCol_setCol_self b A (l1 ++ l2)
  have hb1B : lookupCol (setCol b A (l1 ++ l2)) B = lookupCol b B :=
    lookupCol_setCol_ne b A B (l1 ++ l2) hBA
  have hlast : lookupCol
      (setCol (setCol b A (l1 ++ l2)) B
        (lookupCol (setCol b A (l1 ++ l2)) B ++ (some T).toList)) B
      = lookupCol b B ++ [T] := by
    rw [lookupCol_setCol_self, hb1B]
    rfl
  refine ⟨?_, ?_, ?_, ?_⟩
  · rw [lookupCol_setCol_ne _ B A _ (fun hh => hBA hh.symm), hb1A]
  · exact hlast
  · intro c hcA hcB
    rw [lookupCol_setCol_ne _ B c _ hcB, lookupCol_setCol_ne b A c _ hcA]
  · rw [hlast, List.map_append]
    rfl

/-- Witness for C5: on the demo board, moving task "2" from "In Progress"
onto the "Completed" column appends task2 verbatim to the Completed
column. -/
theorem C5_move_cross_column_witness :
    lookupCol (handleDragEnd demoBoard3 "2" (some "Completed")).1 "Completed"
      = lookupCol demoBoard3 "Completed" ++ [task2] :=
  (C5_move_cross_column demoBoard3 task2 "In Progress" "Completed" "Completed"
    [] [] (by decide) (by decide) (by intro u hu; cases hu)
    (by intro u hu; cases hu) (by decide) (by decide) (by decide) (by decide)
    (by decide)).2.1

theorem allTasks_cons (kv : String × List Task) (b : Board) :
    allTasks (kv :: b) = kv.2 ++ allTasks b := by
  simp [allTasks]

theorem allTasks_append (b c : Board) :
    allTasks (b ++ c) = allTasks b ++ allTasks c := by
  simp [allTasks]

theorem map_replace_id (b : Board) (k : String) (v : List Task)
    (h : b.any (fun kv => kv.1 == k) = false) :
    b.map (fun kv => if kv.1 == k then (k, v) else kv) = b := by
  induction b with
  | nil => rfl
  | cons kv rest ih =>
    rw [List.any_cons] at h
    have h1 : (kv.1 == k) = false := by
      cases hx : (kv.1 == k)
      · rfl
      · rw [hx] at h
        simp at h
    have h2 : rest.any (fun kv => kv.1 == k) = false := by
      cases hx : rest.any (fun kv => kv.1 == k)
      · rfl
      · rw [hx] at h
        simp at h
    rw [List.map_cons, if_neg (by simp [h1]), ih h2]

theorem perm_rotate3 (x y z : List Task) : ((x ++ y) ++ z).Perm ((z ++ y) ++ x) := by
  refine (List.perm_append_comm).trans ?_
  rw [List.append_assoc]
  exact List.Perm.append_left z (List.perm_append_comm)

theorem allTasks_map_replace_perm (b : Board) (k : String) (v : List Task)
    (hnd : (b.map Prod.fst).Nodup)
    (hmem : b.any (fun kv => kv.1 == k) = true) :
    (allTasks (b.map (fun kv => if kv.1 == k then (k, v) else kv))
      ++ lookupCol b k).Perm (allTasks b ++ v) := by
  induction b with
  | nil => cases hmem
  | cons kv rest ih =>
    rw [List.map_cons] at hnd
    rw [List.nodup_cons] at hnd
    obtain ⟨hhead, htail⟩ := hnd
    rw [List.map_cons]
    cases hk : (kv.1 == k)
    · have hmem2 : rest.any (fun kv => kv.1 == k) = true := by
        rw [List.any_cons, hk] at hmem
        simpa using hmem
      rw [if_neg (by simp [hk]), allTasks_cons, allTasks_cons, lookupCol_cons,
        hk, if_neg (by simp), List.append_assoc, List.append_assoc]
      exact List.Perm.append_left kv.2 (ih htail hmem2)
    · have hkeq : kv.1 = k := by simpa using hk
      have hrest : rest.any (fun kv2 => kv2.1 == k) = false := by
        cases hx : rest.any (fun kv2 => kv2.1 == k)
        · rfl
        · obtain ⟨x, hxmem, hxk⟩ := List.any_eq_true.mp hx
          have hxkeq : x.1 = k := by simpa using hxk
          exact absurd (List.mem_map_of_mem Prod.fst hxmem)
            (by rw [hkeq, ← hxkeq] at hhead; exact hhead)
      rw [if_pos (by simp [hk]), map_replace_id rest k v hrest,
        allTasks_cons, allTasks_cons, lookupCol_cons, hk, if_pos (by simp)]
      exact perm_rotate3 v (allTasks rest) kv.2

theorem allTasks_setCol_perm (b : Board) (k : String) (v : List Task)
    (hnd : (b.map Prod.fst).Nodup) :
    (allTasks (setCol b k v) ++ lookupCol b k).Perm (allTasks b ++ v) := by
  cases hmem : b.any (fun kv => kv.1 == k)
  · rw [setCol_not_mem b k v hmem, lookupCol_eq_nil_of_not_any b k hmem,
      allTasks_append, List.append_nil]
    have hsingle : allTasks [(k, v)] = v := by simp [allTasks]
    rw [hsingle]
  · rw [setCol_mem b k v hmem]
    exact allTasks_map_replace_perm b k v hnd hmem

theorem keys_setCol_mem (b : Board) (k : String) (v : List Task)
    (h : b.any (fun kv => kv.1 == k) = true) :
    (setCol b k v).map Prod.fst = b.map Prod.fst := by
  rw [setCol_mem b k v h, List.map_map]
  refine List.map_congr_left ?_
  intro kv _
  cases hk : (kv.1 == k)
  · have hne : kv.1 ≠ k := by simpa using hk
    simp [hne]
  · have hkeq : kv.1 = k := by simpa using hk
    simp [hkeq]

theorem findSourceColumn_any_key (b : Board) (i src : String)
    (h : findSourceColumn b i = some src) :
    b.any (fun kv => kv.1 == src) = true := by
  induction b with
  | nil => cases h
  | cons kv rest ih =>
    rw [findSourceColumn, List.find?_cons] at h
    cases hc : columnContains kv.2 i
    · rw [hc] at h
      rw [List.any_cons]
      rw [ih h]
      simp
    · rw [hc] at h
      simp only [Option.map_some] at h
      have : kv.1 = src := by injection h
      rw [List.any_cons, this]
      simp

theorem lookupCol_of_findSource (b : Board) (i src : String)
    (hnd : (b.map Prod.fst).Nodup)
    (h : findSourceColumn b i = some src) :
    columnContains (lookupCol b src) i = true := by
  induction b with
  | nil => cases h
  | cons kv rest ih =>
    rw [List.map_cons, List.nodup_cons] at hnd
    obtain ⟨hhead, htail⟩ := hnd
    rw [findSourceColumn, List.find?_cons] at h
    cases hc : columnContains kv.2 i
    · rw [hc] at h
      have h2 : findSourceColumn rest i = some src := h
      have hany := findSourceColumn_any_key rest i src h2
      obtain ⟨x, hxmem, hxk⟩ := List.any_eq_true.mp hany
      have hxkeq : x.1 = src := by simpa using hxk
      have hne : kv.1 ≠ src := by
        intro hh
        exact hhead (by rw [hh, ← hxkeq]; exact List.mem_map_of_mem Prod.fst hxmem)
      rw [lookupCol_cons, if_neg (by simp [beq_eq_false_iff_ne.mpr hne])]
      exact ih htail h2
    · rw [hc] at h
      simp only [Option.map_some] at h
      have hkeq : kv.1 = src := by injection h
      rw [lookupCol_cons, if_pos (by simp [hkeq])]
      exact hc

theorem exists_find?_of_contains (ts : List Task) (i : String)
    (h : columnContains ts i = true) :
    ∃ mt, ts.find? (fun t => t.id == i) = some mt := by
  obtain ⟨x, hxmem, hxi⟩ := List.any_eq_true.mp h
  have : (ts.find? (fun t => t.id == i)).isSome = true :=
    List.find?_isSome.mpr ⟨x, hxmem, hxi⟩
  exact Option.isSome_iff_exists.mp this

theorem perm_filter_find (ts : List Task) (i : String) (mt : Task)
    (hnd : (ts.map Task.id).Nodup)
    (hfind : ts.find? (fun t => t.id == i) = some mt) :
    ts.Perm (ts.filter (fun t => !(t.id == i)) ++ [mt]) := by
  induction ts with
  | nil => cases hfind
  | cons t rest ih =>
    rw [List.map_cons, List.nodup_cons] at hnd
    obtain ⟨hhead, htail⟩ := hnd
    rw [List.find?_cons] at hfind
    cases ht : (t.id == i)
    · rw [ht] at hfind
      rw [List.filter_cons, ht]
      simp only [Bool.not_false, if_pos]
      rw [List.cons_append]
      exact (ih htail hfind).cons t
    · rw [ht] at hfind
      have hmt : mt = t := by
        injection hfind with hh
        exact hh.symm
      subst hmt
      have hrest : rest.filter (fun t2 => !(t2.id == i)) = rest := by
        refine List.filter_eq_self.mpr ?_
        intro u hu
        have hne : u.id ≠ mt.id := by
          intro hh
          exact hhead (by rw [← hh]; exact List.mem_map_of_mem Task.id hu)
        have hmtid : mt.id = i := by simpa using ht
        have : (u.id == i) = false :=
          beq_eq_false_iff_ne.mpr (by rw [← hmtid]; exact hne)
        rw [this]
        rfl
      rw [List.filter_cons, ht]
      simp only [Bool.not_true, Bool.false_eq_true, if_false]
      rw [hrest]
      exact (List.perm_append_singleton mt rest).symm

theorem lookupCol_mem_or_nil (b : Board) (k : String) :
    lookupCol b k = [] ∨ lookupCol b k ∈ b.map Prod.snd := by
  rw [lookupCol]
  cases hfind : b.find? (fun kv => kv.1 == k) with
  | none => exact Or.inl rfl
  | some kv =>
    refine Or.inr ?_
    exact List.mem_map_of_mem Prod.snd (List.mem_of_find?_eq_some hfind)

theorem lookupCol_ids_nodup (b : Board) (k : String)
    (hids : ((allTasks b).map Task.id).Nodup) :
    ((lookupCol b k).map Task.id).Nodup := by
  cases lookupCol_mem_or_nil b k with
  | inl h =>
    rw [h]
    exact List.nodup_nil
  | inr h =>
    have hsub : (lookupCol b k).Sublist (allTasks b) :=
      List.sublist_flatten_of_mem h
    exact List.Nodup.sublist (hsub.map Task.id) hids

/-- C10 (implicit invariant): for a board whose column keys are distinct (a
JS object invariant) and whose task ids are globally unique (the board
invariant of the spec's data model), every drag event — no-op or
cross-column — leaves the multiset of tasks across all columns unchanged:
no task is lost or duplicated by a move. -/
theorem C10_move_preserves_tasks (b : Board) (activeId : String)
    (over : Option String)
    (hkeys : (b.map Prod.fst).Nodup)
    (hids : ((allTasks b).map Task.id).Nodup) :
    (allTasks (handleDragEnd b activeId over).1).Perm (allTasks b) := by
  cases over with
  | none =>
    rw [handleDragEnd_over_none]
  | some overId =>
    by_cases h1 : (activeId == overId) = true
    · have heq : activeId = overId := by simpa using h1
      subst heq
      rw [handleDragEnd_onto_self]
    · have h1f : (activeId == overId) = false := by simpa using h1
      cases hsrc : findSourceColumn b activeId with
      | none =>
        rw [handleDragEnd_no_source b activeId overId h1f hsrc]
      | some src =>
        by_cases hg : (src == "" || orElseFalsy (findSourceColumn b overId) overId == ""
            || src == orElseFalsy (findSourceColumn b overId) overId) = true
        · rw [handleDragEnd_guard_stop b activeId overId src h1f hsrc hg]
        · have hgf : (src == "" || orElseFalsy (findSourceColumn b overId) overId == ""
              || src == orElseFalsy (findSourceColumn b overId) overId) = false := by
            simpa using hg
          rw [handleDragEnd_success b activeId overId src h1f hsrc hgf]
          have hcont : columnContains (lookupCol b src) activeId = true :=
            lookupCol_of_findSource b activeId src hkeys hsrc
          obtain ⟨mt, hmt⟩ := exists_find?_of_contains (lookupCol b src) activeId hcont
          have hnodla : ((lookupCol b src).map Task.id).Nodup :=
            lookupCol_ids_nodup b src hids
          have hperm_la : (lookupCol b src).Perm
              ((lookupCol b src).filter (fun t => !(t.id == activeId)) ++ [mt]) :=
            perm_filter_find (lookupCol b src) activeId mt hnodla hmt
          have hany : b.any (fun kv => kv.1 == src) = true :=
            findSourceColumn_any_key b activeId src hsrc
          have hkeys1 : ((setCol b src
              ((lookupCol b src).filter (fun t => !(t.id == activeId)))).map
                Prod.fst).Nodup := by
            rw [keys_setCol_mem b src _ hany]
            exact hkeys
          rw [hmt]
          set la' := (lookupCol b src).filter (fun t => !(t.id == activeId)) with hla'
          set b1 := setCol b src la' with hb1
          set tgt := orElseFalsy (findSourceColumn b overId) overId with htgt2
          have P1 : (allTasks b1 ++ lookupCol b src).Perm (allTasks b ++ la') :=
            allTasks_setCol_perm b src la' hkeys
          have P2 : (allTasks (setCol b1 tgt (lookupCol b1 tgt ++ (some mt).toList))
              ++ lookupCol b1 tgt).Perm
              (allTasks b1 ++ (lookupCol b1 tgt ++ (some mt).toList)) :=
            allTasks_setCol_perm b1 tgt _ hkeys1
          have htoList : (some mt).toList = [mt] := rfl
          rw [htoList] at P2
          have P2b : (allTasks (setCol b1 tgt (lookupCol b1 tgt ++ [mt]))
              ++ lookupCol b1 tgt).Perm
              ((allTasks b1 ++ [mt]) ++ lookupCol b1 tgt) := by
            refine P2.trans ?_
            rw [List.append_assoc]
            exact List.Perm.append_left (allTasks b1) List.perm_append_comm
          have P2c : (allTasks (setCol b1 tgt (lookupCol b1 tgt ++ [mt]))).Perm
              (allTasks b1 ++ [mt]) :=
            (List.perm_append_right_iff (lookupCol b1 tgt)).mp P2b
          have chain : ((allTasks (setCol b1 tgt (lookupCol b1 tgt ++ [mt])))
              ++ la').Perm (allTasks b ++ la') := by
            refine (List.Perm.append_right la' P2c).trans ?_
            rw [List.append_assoc]
            refine (List.Perm.append_left (allTasks b1)
              ((List.perm_append_comm).trans hperm_la.symm)).trans P1
          rw [htoList]
          exact (List.perm_append_right_iff la').mp chain

/-- Witness for C10: on the demo board (distinct keys, unique ids), the
move of task "2" onto "Completed" keeps the same multiset of tasks. -/
theorem C10_move_preserves_tasks_witness :
    (allTasks (handleDragEnd demoBoard3 "2" (some "Completed")).1).Perm
      (allTasks demoBoard3) :=
  C10_move_preserves_tasks demoBoard3 "2" (some "Completed") (by decide) (by decide)

end TaskBoard
